import Mathlib

/-!
# esp32_camera_web_streaming: MJPEG stream session and static capture loop

A shallow embedding of `main/src/http_server.c`, of the capture loop of
`main/src/main.c` and of `sdcard_save_picture` in
`main/src/sdcard_fatfs_manager.c`.

The C functions call into the HTTP server, the camera driver, the JPEG
transcoder and the C library. Those collaborators are not part of the
repository; the embedding takes their outcomes as inputs (`Env`, the list of
frames the driver hands out) and records every call made to them as an
`Event`, in program order. Bytes are natural numbers, `esp_err_t` is an
integer, a pointer that may be `NULL` is an `Option`.
-/

namespace CameraStream

/-! ## Basic types -/

/-- The error code type of ESP-IDF. -/
abbrev esp_err_t := Int

/-- Success code of ESP-IDF. -/
abbrev ESP_OK : esp_err_t := 0

/-- Generic failure code of ESP-IDF. -/
abbrev ESP_FAIL : esp_err_t := -1

/-- Pixel formats of the camera driver; the code only tests for `PIXFORMAT_JPEG`. -/
inductive pixformat_t where
  | PIXFORMAT_RGB565
  | PIXFORMAT_YUV422
  | PIXFORMAT_YUV420
  | PIXFORMAT_GRAYSCALE
  | PIXFORMAT_JPEG
  | PIXFORMAT_RGB888
  | PIXFORMAT_RAW
  | PIXFORMAT_RGB444
  | PIXFORMAT_RGB555
  deriving DecidableEq, Repr

open pixformat_t

/-- The fields of the driver's frame buffer that the code reads: the pixel
buffer `buf`, its length field `len` and the format tag. -/
structure camera_fb_t where
  buf : List Nat
  len : Nat
  format : pixformat_t
  deriving DecidableEq, Repr

/-- The arguments of one `httpd_resp_send_chunk` call: `buf` is the object the
pointer argument points to (`none` for a `NULL` pointer), `len` the `buf_len`
argument. -/
structure Chunk where
  buf : Option (List Nat)
  len : Nat
  deriving DecidableEq, Repr

/-- Calls made to the collaborators, as they appear in program order. -/
inductive Event where
  | set_type (value : String) (result : esp_err_t)
  | set_hdr (field value : String) (result : esp_err_t)
  | fb_get (frame : Option camera_fb_t)
  | frame2jpg (frame : camera_fb_t) (quality : Nat)
  | fb_return (frame : camera_fb_t)
  | free (buffer : List Nat)
  | send_chunk (chunk : Chunk) (result : esp_err_t)
  deriving DecidableEq, Repr

/-- What `frame2jpg` leaves behind: its boolean return value and the values of
`*out` and `*out_len` after the call (`stream_handler` initialises them to
`NULL` and `0`). -/
structure frame2jpg_ret where
  converted : Bool
  out : Option (List Nat)
  out_len : Nat
  deriving DecidableEq, Repr

/-- Outcomes of the collaborators during one stream session. `set_hdr i` is the
result of the `i`-th `httpd_resp_set_hdr` call and `send_chunk i` the result of
the `i`-th `httpd_resp_send_chunk` call of the session, both counted from 0. -/
structure Env where
  set_type : esp_err_t
  set_hdr : Nat → esp_err_t
  frame2jpg : camera_fb_t → Nat → frame2jpg_ret
  send_chunk : Nat → esp_err_t

/-! ## C library text formatting -/

/-- The bytes of a C string literal, without the terminating NUL. -/
def bytes (s : String) : List Nat := s.data.map Char.toNat

/-- Decimal conversion of `%zu` and `PRIu32`: ASCII digits, most significant
first, no padding, a single `0` for zero. -/
def decimal (n : Nat) : List Nat :=
  if n = 0 then [48] else (Nat.digits 10 n).reverse.map (fun d => 48 + d)

/-- Result of `snprintf(dst, size, ...)`: `stored` are the bytes written to
`dst` (at most `size - 1` bytes of the text, then a NUL), `ret` is the return
value, the length the whole text has. -/
structure snprintf_result where
  stored : List Nat
  ret : Nat
  deriving DecidableEq, Repr

/-- Model of `snprintf` on an already formatted text. -/
def snprintf (size : Nat) (text : List Nat) : snprintf_result :=
  { stored := if size = 0 then [] else text.take (size - 1) ++ [0]
    ret := text.length }

/-- The part of the header format string before `%zu`. -/
def header_lead : List Nat :=
  bytes "\r\n--frame\r\nContent-Type: image/jpeg\r\nContent-Length: "

/-- The part of the header format string after `%zu`. -/
def header_tail : List Nat := bytes "\r\n\r\n"

/-- The text of the format
`"\r\n--frame\r\nContent-Type: image/jpeg\r\nContent-Length: %zu\r\n\r\n"`
for the argument `n`. -/
def header_text (n : Nat) : List Nat :=
  header_lead ++ decimal n ++ header_tail

/-! ## http_server.c -/

/-- Model of `set_response_headers`: result and the calls made. -/
def set_response_headers (env : Env) : esp_err_t × List Event :=
  let e0 := Event.set_type "multipart/x-mixed-replace; boundary=frame" env.set_type
  if env.set_type ≠ ESP_OK then (env.set_type, [e0]) else
  let e1 := Event.set_hdr "Access-Control-Allow-Origin" "*" (env.set_hdr 0)
  if env.set_hdr 0 ≠ ESP_OK then (env.set_hdr 0, [e0, e1]) else
  let e2 := Event.set_hdr "X-Content-Type-Options" "nosniff" (env.set_hdr 1)
  if env.set_hdr 1 ≠ ESP_OK then (env.set_hdr 1, [e0, e1, e2]) else
  let e3 := Event.set_hdr "Cache-Control" "no-store, no-cache, must-revalidate, max-age=0"
    (env.set_hdr 2)
  (env.set_hdr 2, [e0, e1, e2, e3])

/-- Size of `part_buffer` in `send_jpeg_frame`. -/
def PART_BUFFER_SIZE : Nat := 64

/-- The first `httpd_resp_send_chunk` call of `send_jpeg_frame`: `part_buffer`
as `snprintf` left it, and `header_length`, the value `snprintf` returned. -/
def header_chunk (jpeg_buffer_size : Nat) : Chunk :=
  let r := snprintf PART_BUFFER_SIZE (header_text jpeg_buffer_size)
  { buf := some r.stored, len := r.ret }

/-- The last `httpd_resp_send_chunk` call of `send_jpeg_frame`: the string
literal `"\r\n--frame\r\n"` (its characters and the terminating NUL) with the
length argument 13. -/
def trailer_chunk : Chunk :=
  { buf := some (bytes "\r\n--frame\r\n" ++ [0]), len := 13 }

/-- Model of `send_jpeg_frame`; `sent` is the number of chunk sends the session
has made before the call. Returns the result and the calls made. -/
def send_jpeg_frame (env : Env) (sent : Nat) (jpeg_buffer : Option (List Nat))
    (jpeg_buffer_size : Nat) : esp_err_t × List Event :=
  let c1 := Event.send_chunk (header_chunk jpeg_buffer_size) (env.send_chunk sent)
  if env.send_chunk sent ≠ ESP_OK then (env.send_chunk sent, [c1]) else
  let c2 := Event.send_chunk { buf := jpeg_buffer, len := jpeg_buffer_size }
    (env.send_chunk (sent + 1))
  if env.send_chunk (sent + 1) ≠ ESP_OK then (env.send_chunk (sent + 1), [c1, c2]) else
  let c3 := Event.send_chunk trailer_chunk (env.send_chunk (sent + 2))
  (env.send_chunk (sent + 2), [c1, c2, c3])

/-- Values `process_frame` hands back: its result, `*jpeg_buffer`,
`*jpeg_buffer_size`, and the calls made. -/
structure process_frame_ret where
  result : esp_err_t
  jpeg_buffer : Option (List Nat)
  jpeg_buffer_size : Nat
  events : List Event
  deriving DecidableEq, Repr

/-- Model of `process_frame`. The out parameters start as `NULL` and `0`
(set by `stream_handler`); on the transcoding path they hold what `frame2jpg`
left in them. -/
def process_frame (env : Env) (frame_buffer : camera_fb_t) : process_frame_ret :=
  if frame_buffer.format ≠ PIXFORMAT_JPEG then
    let r := env.frame2jpg frame_buffer 80
    if !r.converted then
      { result := ESP_FAIL, jpeg_buffer := r.out, jpeg_buffer_size := r.out_len
        events := [Event.frame2jpg frame_buffer 80, Event.fb_return frame_buffer] }
    else
      { result := ESP_OK, jpeg_buffer := r.out, jpeg_buffer_size := r.out_len
        events := [Event.frame2jpg frame_buffer 80] }
  else
    { result := ESP_OK, jpeg_buffer := some frame_buffer.buf
      jpeg_buffer_size := frame_buffer.len, events := [] }

/-- Calls made by the release branch of the loop body (`http_server.c` lines
121 to 125). -/
def release_after_send (frame_buffer : camera_fb_t) (jpeg_buffer : Option (List Nat)) :
    List Event :=
  if frame_buffer.format = PIXFORMAT_JPEG then [Event.fb_return frame_buffer]
  else match jpeg_buffer with
    | some b => [Event.free b]
    | none => []

/-- Calls made by the exit branch of the loop (`http_server.c` lines 128 to
133) for an acquired frame. -/
def release_on_exit (result : esp_err_t) (frame_buffer : camera_fb_t) : List Event :=
  if result ≠ ESP_OK then
    if frame_buffer.format = PIXFORMAT_JPEG then [Event.fb_return frame_buffer] else []
  else []

/-- One pass through the body of the `while (1)` loop of `stream_handler`, for
the given outcome of `esp_camera_fb_get`. Returns `result` as it stands at the
test `result != ESP_OK` and the calls made, those of the exit branch
included. -/
def loop_body (env : Env) (sent : Nat) (got : Option camera_fb_t) : esp_err_t × List Event :=
  match got with
  | none => (ESP_FAIL, [Event.fb_get none])
  | some frame_buffer =>
    let p := process_frame env frame_buffer
    let s := if p.result = ESP_OK then send_jpeg_frame env sent p.jpeg_buffer p.jpeg_buffer_size
      else (p.result, [])
    (s.1, Event.fb_get (some frame_buffer) :: p.events ++ s.2
      ++ release_after_send frame_buffer p.jpeg_buffer
      ++ release_on_exit s.1 frame_buffer)

/-- Number of `httpd_resp_send_chunk` calls in a list of calls. -/
def sends (events : List Event) : Nat :=
  (events.filter (fun e => match e with | Event.send_chunk _ _ => true | _ => false)).length

/-- The `while (1)` loop of `stream_handler`, run against the outcomes
`captures` of the successive `esp_camera_fb_get` calls. The result is `none`
when the loop has consumed all of `captures` without leaving: it is then still
streaming. -/
def stream_loop (env : Env) : List (Option camera_fb_t) → Nat → Option esp_err_t × List Event
  | [], _ => (none, [])
  | got :: rest, sent =>
    let b := loop_body env sent got
    if b.1 ≠ ESP_OK then (some b.1, b.2)
    else
      let r := stream_loop env rest (sent + sends b.2)
      (r.1, b.2 ++ r.2)

/-- Model of `stream_handler`. -/
def stream_handler (env : Env) (captures : List (Option camera_fb_t)) :
    Option esp_err_t × List Event :=
  let h := set_response_headers env
  if h.1 ≠ ESP_OK then (some h.1, h.2)
  else
    let r := stream_loop env captures 0
    (r.1, h.2 ++ r.2)

/-! ## What a client reads -/

/-- The bytes a chunk send reads: the first `len` bytes of the object, and,
when `len` exceeds the object, the bytes `beyond 0, beyond 1, ...` that lie in
memory behind it. -/
def Chunk.wire (c : Chunk) (beyond : Nat → Nat) : List Nat :=
  (c.buf.getD []).take c.len ++ (List.range (c.len - (c.buf.getD []).length)).map beyond

/-- Removes `header_len` leading and `trailer_len` trailing bytes of a part. -/
def strip_framing (header_len trailer_len : Nat) (part : List Nat) : List Nat :=
  (part.drop header_len).take (part.length - header_len - trailer_len)

/-- Value of a non-empty list of ASCII decimal digits, `none` for anything
else. -/
def parse_decimal (field : List Nat) : Option Nat :=
  if field ≠ [] ∧ ∀ b ∈ field, 48 ≤ b ∧ b ≤ 57 then
    some (field.foldl (fun acc b => 10 * acc + (b - 48)) 0)
  else none

/-- The bytes between `Content-Length: ` and the next carriage return of a
header chunk; `none` when the chunk does not start with the header lead or no
carriage return follows. -/
def content_length_field (chunk_bytes : List Nat) : Option (List Nat) :=
  if chunk_bytes.take header_lead.length = header_lead then
    let rest := chunk_bytes.drop header_lead.length
    let field := rest.takeWhile (fun b => b ≠ 13)
    if field.length < rest.length then some field else none
  else none

/-- The `Content-Length` value a client parses from a header chunk. -/
def parse_content_length (chunk_bytes : List Nat) : Option Nat :=
  (content_length_field chunk_bytes).bind parse_decimal

/-! ## main.c and sdcard_fatfs_manager.c: static capture mode -/

/-- Calls made by the capture loop and by `sdcard_save_picture`. `fopen` records
the file name buffer passed, the mode and whether a stream was returned;
`fwrite` records its arguments and the item count it returned, `fclose` the
value it returned. -/
inductive CaptureEvent where
  | fb_get (frame : Option camera_fb_t)
  | fopen (name : List Nat) (mode : String) (opened : Bool)
  | fwrite (buffer : List Nat) (size count ret : Nat)
  | fclose (ret : Int)
  | fb_return (frame : camera_fb_t)
  | vTaskDelay (ms : Nat)
  deriving DecidableEq, Repr

/-- Outcomes of one pass of the capture loop: what `esp_camera_fb_get` returns
and, when the picture is saved, whether `fopen` returns a stream, how many
bytes `fwrite` reports as written and what `fclose` returns (0 on success). -/
structure Poll where
  frame : Option camera_fb_t
  fopen_ok : Bool
  fwrite_ret : Nat
  fclose_ret : Int
  deriving DecidableEq, Repr

/-- The text `FILE_PATH_PREFIX`, index, `EXTENSION` that `sdcard_save_picture`
formats. -/
def save_name_text (save_file_index : Nat) : List Nat :=
  bytes "/sdcard/picture" ++ decimal save_file_index ++ bytes ".jpg"

/-- Model of `sdcard_save_picture`: result and calls made. The code does not
look at the return values of `fwrite` and `fclose`: once `fopen` has returned a
stream the result is `ESP_OK`. -/
def sdcard_save_picture (fopen_ok : Bool) (fwrite_ret : Nat) (fclose_ret : Int)
    (picture_buffer : camera_fb_t) (save_file_index : Nat) : esp_err_t × List CaptureEvent :=
  let save_jpeg_name := (snprintf 50 (save_name_text save_file_index)).stored
  if !fopen_ok then (ESP_FAIL, [CaptureEvent.fopen save_jpeg_name "wb" false])
  else (ESP_OK, [CaptureEvent.fopen save_jpeg_name "wb" true,
    CaptureEvent.fwrite picture_buffer.buf 1 picture_buffer.len fwrite_ret,
    CaptureEvent.fclose fclose_ret])

/-- One pass through the `while (1)` loop of `app_main` in SD card mode:
the new value of `saved_frame_count` (a `uint32_t`) and the calls made. -/
def poll_step (saved_frame_count : Nat) (p : Poll) : Nat × List CaptureEvent :=
  match p.frame with
  | some frame_buffer =>
    let s := sdcard_save_picture p.fopen_ok p.fwrite_ret p.fclose_ret frame_buffer
      saved_frame_count
    (if s.1 ≠ ESP_OK then saved_frame_count else (saved_frame_count + 1) % 2 ^ 32,
      CaptureEvent.fb_get (some frame_buffer) :: s.2
        ++ [CaptureEvent.fb_return frame_buffer, CaptureEvent.vTaskDelay 5000])
  | none => (saved_frame_count, [CaptureEvent.fb_get none, CaptureEvent.vTaskDelay 5000])

/-- The capture loop run over the passes `polls`, from the given counter. -/
def capture_loop : List Poll → Nat → Nat × List CaptureEvent
  | [], saved_frame_count => (saved_frame_count, [])
  | p :: rest, saved_frame_count =>
    let s := poll_step saved_frame_count p
    let r := capture_loop rest s.1
    (r.1, s.2 ++ r.2)

/-- The SD card branch of `app_main` after initialisation: the loop started
with `saved_frame_count = 0`. -/
def app_main_capture (polls : List Poll) : Nat × List CaptureEvent :=
  capture_loop polls 0

/-! ## Observations on call sequences -/

/-- Number of release actions in a call sequence: `esp_camera_fb_return` and
`free` calls. -/
def release_actions (events : List Event) : Nat :=
  events.countP (fun e => match e with
    | Event.fb_return _ => true
    | Event.free _ => true
    | _ => false)

/-- Number of `esp_camera_fb_return` calls in a call sequence. -/
def fb_returns (events : List Event) : Nat :=
  events.countP (fun e => match e with
    | Event.fb_return _ => true
    | _ => false)

/-- The `buf_len` arguments of the chunk sends of a call sequence, in order. -/
def chunk_sizes (events : List Event) : List Nat :=
  events.filterMap (fun e => match e with
    | Event.send_chunk c _ => some c.len
    | _ => none)

/-- The frame acquisitions and frame returns of a call sequence, in order. -/
def frame_calls (events : List Event) : List Event :=
  events.filter (fun e => match e with
    | Event.fb_get _ => true
    | Event.fb_return _ => true
    | _ => false)

/-- A call that neither acquires a frame nor sends a chunk. -/
def Event.quiet : Event → Bool
  | Event.fb_get _ => false
  | Event.send_chunk _ _ => false
  | _ => true

/-- A call that sets the content type or a response header. -/
def Event.is_setup : Event → Bool
  | Event.set_type _ _ => true
  | Event.set_hdr _ _ _ => true
  | _ => false

/-- The test the code makes before it increments the counter: a frame was
acquired and `sdcard_save_picture` returned `ESP_OK`, which it does as soon as
`fopen` returned a stream. This is not yet a successful write. -/
def Poll.save_reported (p : Poll) : Bool := p.frame.isSome && p.fopen_ok

/-- Number of polls for which `sdcard_save_picture` returned `ESP_OK`. -/
def reported_count (polls : List Poll) : Nat := polls.countP Poll.save_reported

/-- The write of the picture succeeded: a frame was acquired, `fopen` returned
a stream, `fwrite` reported all `len` bytes written and `fclose` returned 0. -/
def Poll.write_succeeded (p : Poll) : Bool :=
  match p.frame with
  | some frame_buffer =>
    p.fopen_ok && p.fwrite_ret == frame_buffer.len && p.fclose_ret == 0
  | none => false

/-- The write was lost after the file had been opened: `fwrite` reported fewer
bytes than the picture has, or `fclose` failed. -/
def Poll.write_lost (p : Poll) : Bool :=
  match p.frame with
  | some frame_buffer =>
    p.fopen_ok && !(p.fwrite_ret == frame_buffer.len && p.fclose_ret == 0)
  | none => false

/-- Number of polls whose write succeeded. -/
def written_count (polls : List Poll) : Nat := polls.countP Poll.write_succeeded

/-- The name buffers of the files that were written successfully, in order:
opened, all bytes reported written by `fwrite`, closed with result 0. -/
def written_files : List CaptureEvent → List (List Nat)
  | [] => []
  | CaptureEvent.fopen name _ true :: CaptureEvent.fwrite _ _ count ret
      :: CaptureEvent.fclose r :: rest =>
    if ret = count ∧ r = 0 then name :: written_files rest else written_files rest
  | _ :: rest => written_files rest

/-- The name buffers of the files that were opened, in order. -/
def opened_files (events : List CaptureEvent) : List (List Nat) :=
  events.filterMap (fun e => match e with
    | CaptureEvent.fopen name _ true => some name
    | _ => none)

/-- The calls of one pass of the stream loop for a JPEG frame when all three
chunk sends succeed. -/
def jpeg_pass (f : camera_fb_t) : List Event :=
  [Event.fb_get (some f), Event.send_chunk (header_chunk f.len) ESP_OK,
    Event.send_chunk ⟨some f.buf, f.len⟩ ESP_OK, Event.send_chunk trailer_chunk ESP_OK,
    Event.fb_return f]

/-- Every failed chunk send of `events` is followed only by quiet calls, and
its error code is the result `r`. -/
def stops_at_failed_send (r : Option esp_err_t) : List Event → Prop
  | [] => True
  | Event.send_chunk _ e :: post =>
    (e ≠ ESP_OK → r = some e ∧ ∀ ev ∈ post, ev.quiet = true) ∧ stops_at_failed_send r post
  | _ :: post => stops_at_failed_send r post

/-- No chunk send of `events` failed. -/
def all_sends_ok (events : List Event) : Prop :=
  ∀ c e, Event.send_chunk c e ∈ events → e = ESP_OK

/-! ## Sample inputs -/

/-- A session environment in which header setup succeeds, the transcoder
behaves as `transcode` and chunk sends return `send`. -/
def session_env (transcode : frame2jpg_ret) (send : Nat → esp_err_t) : Env :=
  { set_type := ESP_OK, set_hdr := fun _ => ESP_OK,
    frame2jpg := fun _ _ => transcode, send_chunk := send }

/-- A session environment in which the second `httpd_resp_set_hdr` call fails
with code 259. -/
def setup_fails_env : Env :=
  { set_type := ESP_OK, set_hdr := fun i => if i = 1 then 259 else ESP_OK,
    frame2jpg := fun _ _ => { converted := false, out := none, out_len := 0 },
    send_chunk := fun _ => ESP_OK }

/-- A transcoder outcome reporting failure and leaving the out parameters
untouched. -/
def transcode_failed : frame2jpg_ret := { converted := false, out := none, out_len := 0 }

/-- A four byte frame in JPEG format. -/
def sample_jpeg : camera_fb_t :=
  { buf := [255, 216, 255, 217], len := 4, format := PIXFORMAT_JPEG }

/-- A four byte frame in RGB565 format. -/
def sample_rgb565 : camera_fb_t :=
  { buf := [0, 31, 248, 0], len := 4, format := PIXFORMAT_RGB565 }

/-- A JPEG frame of `n` zero bytes. -/
def jpeg_of_length (n : Nat) : camera_fb_t :=
  { buf := List.replicate n 0, len := n, format := PIXFORMAT_JPEG }

/-! ## Text formatting facts -/

theorem header_lead_length : header_lead.length = 53 := by decide

theorem header_tail_eq : header_tail = [13, 10, 13, 10] := by decide

theorem decimal_ne_nil (n : Nat) : decimal n ≠ [] := by
  unfold decimal
  split
  · simp
  · rename_i h
    simp [Nat.digits_eq_nil_iff_eq_zero, h]

/-- Every byte of a decimal conversion is an ASCII digit. -/
theorem decimal_digit (n b : Nat) (hb : b ∈ decimal n) : 48 ≤ b ∧ b ≤ 57 := by
  unfold decimal at hb
  split at hb
  · simp at hb; omega
  · simp only [List.mem_map, List.mem_reverse] at hb
    obtain ⟨d, hd, rfl⟩ := hb
    have := Nat.digits_lt_base (by norm_num : 1 < 10) hd
    omega

theorem decimal_ne_cr (n : Nat) : ∀ b ∈ decimal n, b ≠ 13 := by
  intro b hb
  have := decimal_digit n b hb
  omega

theorem foldl_digits (l : List Nat) (acc : Nat) :
    (l.map (fun d => 48 + d)).foldl (fun acc b => 10 * acc + (b - 48)) acc
      = Nat.ofDigits 10 l.reverse + 10 ^ l.length * acc := by
  induction l generalizing acc with
  | nil => simp
  | cons d l ih =>
    simp only [List.map_cons, List.foldl_cons, List.reverse_cons, List.length_cons]
    rw [ih, Nat.ofDigits_append, Nat.ofDigits_singleton]
    simp only [List.length_reverse]
    have : 48 + d - 48 = d := by omega
    rw [this]
    ring

theorem decimal_value (n : Nat) :
    (decimal n).foldl (fun acc b => 10 * acc + (b - 48)) 0 = n := by
  unfold decimal
  split
  · subst_vars; simp
  · rw [foldl_digits]
    simp [Nat.ofDigits_digits]

/-- A number below `10 ^ k` has at most `k` decimal digits. -/
theorem decimal_length_le (n k : Nat) (hk : 1 ≤ k) (h : n < 10 ^ k) :
    (decimal n).length ≤ k := by
  unfold decimal
  split
  · simpa using hk
  · simp only [List.length_map, List.length_reverse]
    rename_i hn
    have h1 := Nat.base_pow_length_digits_le 10 n (by norm_num) hn
    have h2 : 10 ^ (Nat.digits 10 n).length < 10 ^ (k + 1) := by
      rw [pow_succ]; omega
    have h3 := (Nat.pow_lt_pow_iff_right (by norm_num : 1 < 10)).mp h2
    omega

theorem parse_decimal_decimal (n : Nat) : parse_decimal (decimal n) = some n := by
  unfold parse_decimal
  rw [if_pos ⟨decimal_ne_nil n, decimal_digit n⟩, decimal_value]

theorem header_text_length (n : Nat) : (header_text n).length = 57 + (decimal n).length := by
  simp only [header_text, List.length_append, header_lead_length, header_tail_eq,
    List.length_cons, List.length_nil]
  omega

theorem header_text_split (n : Nat) :
    header_text n = (header_lead ++ (decimal n ++ [13])) ++ [10, 13, 10] := by
  simp [header_text, header_tail_eq]

theorem decimal_million : decimal 1000000 = [49, 48, 48, 48, 48, 48, 48] := by
  simp [decimal]

theorem decimal_max : decimal 4294967295 = [52, 50, 57, 52, 57, 54, 55, 50, 57, 53] := by
  simp [decimal]

/-! ## Chunk reads -/

theorem wire_length (c : Chunk) (beyond : Nat → Nat) : (c.wire beyond).length = c.len := by
  simp only [Chunk.wire, List.length_append, List.length_take, List.length_map, List.length_range]
  omega

theorem wire_payload (payload : List Nat) (beyond : Nat → Nat) :
    Chunk.wire ⟨some payload, payload.length⟩ beyond = payload := by
  simp [Chunk.wire]

theorem strip_framing_append (h t p : List Nat) :
    strip_framing h.length t.length (h ++ p ++ t) = p := by
  simp [strip_framing, List.append_assoc]

theorem header_chunk_len (n : Nat) : (header_chunk n).len = (header_text n).length := rfl

theorem snprintf_stored (t : List Nat) : (snprintf 64 t).stored = t.take 63 ++ [0] := by
  simp [snprintf]

theorem snprintf_ret (size : Nat) (t : List Nat) : (snprintf size t).ret = t.length := rfl

/-- A text of at most 63 bytes is stored whole and the header chunk reads
exactly the text. -/
theorem header_chunk_wire_of_fits (n : Nat) (h : (header_text n).length ≤ 63)
    (beyond : Nat → Nat) : (header_chunk n).wire beyond = header_text n := by
  have h1 : List.take 63 (header_text n) = header_text n := List.take_of_length_le h
  simp [Chunk.wire, header_chunk, snprintf, PART_BUFFER_SIZE, h1, List.take_append_eq_append_take]

/-- A text of exactly 64 bytes loses its last byte to the terminating NUL. -/
theorem wire_snprintf_full (t : List Nat) (beyond : Nat → Nat) (h : t.length = 64) :
    Chunk.wire ⟨some (snprintf 64 t).stored, (snprintf 64 t).ret⟩ beyond = t.take 63 ++ [0] := by
  have h2 : (List.take 63 t ++ [0]).length = 64 := by
    simp [h]
  simp only [Chunk.wire, snprintf, Option.getD_some, h]
  rw [if_neg (by norm_num)]
  simp only [Nat.add_one_sub_one]
  rw [List.take_of_length_le (by omega), h2]
  simp

/-- The first 63 bytes of the text reach the chunk unchanged. -/
theorem wire_snprintf_lead (A Z : List Nat) (beyond : Nat → Nat) (hA : A.length ≤ 63) :
    ∃ W, Chunk.wire ⟨some (snprintf 64 (A ++ Z)).stored, (snprintf 64 (A ++ Z)).ret⟩ beyond
      = A ++ W := by
  have e1 : (A ++ Z).take 63 = A ++ Z.take (63 - A.length) := by
    rw [List.take_append_eq_append_take, List.take_of_length_le hA]
  have e2 : ∀ Y : List Nat, (A ++ Y).take (A ++ Z).length
      = A ++ Y.take ((A ++ Z).length - A.length) := by
    intro Y
    rw [List.take_append_eq_append_take, List.take_of_length_le (by simp)]
  simp only [Chunk.wire, Option.getD_some, snprintf_stored, snprintf_ret]
  rw [e1, List.append_assoc, e2, List.append_assoc]
  exact ⟨_, rfl⟩

/-- When the text has more than 63 bytes, a NUL follows its first 63 bytes in
the chunk. -/
theorem wire_snprintf_cut (A Z : List Nat) (beyond : Nat → Nat) (hA : A.length = 63)
    (hZ : 1 ≤ Z.length) :
    ∃ W, Chunk.wire ⟨some (snprintf 64 (A ++ Z)).stored, (snprintf 64 (A ++ Z)).ret⟩ beyond
      = A ++ 0 :: W := by
  have hs : (snprintf 64 (A ++ Z)).stored = A ++ [0] := by
    rw [snprintf_stored, List.take_left' hA]
  have hl : (A ++ [0]).length ≤ (A ++ Z).length := by
    simp only [List.length_append, List.length_cons, List.length_nil]; omega
  simp only [Chunk.wire, Option.getD_some, hs, snprintf_ret]
  rw [List.take_of_length_le hl]
  exact ⟨List.map beyond (List.range ((A ++ Z).length - (A ++ [0]).length)), by simp⟩

theorem takeWhile_append_stop (p : Nat → Bool) (ds W : List Nat) (x : Nat)
    (hds : ∀ b ∈ ds, p b = true) (hx : p x = false) :
    (ds ++ x :: W).takeWhile p = ds := by
  induction ds with
  | nil => simp [List.takeWhile, hx]
  | cons d ds ih =>
    have hd : p d = true := hds d (by simp)
    simp only [List.cons_append, List.takeWhile_cons, hd, if_true]
    rw [ih (fun b hb => hds b (by simp [hb]))]

theorem takeWhile_append_pass (p : Nat → Bool) (ds W : List Nat)
    (hds : ∀ b ∈ ds, p b = true) :
    (ds ++ W).takeWhile p = ds ++ W.takeWhile p := by
  induction ds with
  | nil => simp
  | cons d ds ih =>
    have hd : p d = true := hds d (by simp)
    simp only [List.cons_append, List.takeWhile_cons, hd, if_true]
    rw [ih (fun b hb => hds b (by simp [hb]))]

theorem content_length_field_of_cr (ds W : List Nat) (hds : ∀ b ∈ ds, b ≠ 13) :
    content_length_field (header_lead ++ (ds ++ 13 :: W)) = some ds := by
  unfold content_length_field
  rw [List.take_left' rfl, if_pos rfl]
  simp only [List.drop_left' rfl]
  rw [takeWhile_append_stop _ ds W 13 (by simpa using hds) (by simp)]
  simp

/-- A field that runs into a NUL before any carriage return does not parse. -/
theorem parse_content_length_of_nul (ds W : List Nat) (hds : ∀ b ∈ ds, b ≠ 13) :
    parse_content_length (header_lead ++ (ds ++ 0 :: W)) = none := by
  unfold parse_content_length content_length_field
  rw [List.take_left' rfl, if_pos rfl]
  simp only [List.drop_left' rfl]
  have : ds ++ 0 :: W = (ds ++ [0]) ++ W := by simp
  rw [this, takeWhile_append_pass _ (ds ++ [0]) W (by
    intro b hb
    rcases List.mem_append.mp hb with h | h
    · simpa using hds b h
    · simp at h; simp [h])]
  split
  · simp only [Option.some_bind, parse_decimal]
    rw [if_neg]
    rintro ⟨-, h⟩
    have := h 0 (by simp)
    omega
  · rfl


/-! ## Header setup -/

theorem set_response_headers_ok (env : Env) (h : (set_response_headers env).1 = ESP_OK) :
    (set_response_headers env).2
      = [Event.set_type "multipart/x-mixed-replace; boundary=frame" ESP_OK,
          Event.set_hdr "Access-Control-Allow-Origin" "*" ESP_OK,
          Event.set_hdr "X-Content-Type-Options" "nosniff" ESP_OK,
          Event.set_hdr "Cache-Control" "no-store, no-cache, must-revalidate, max-age=0"
            ESP_OK] := by
  unfold set_response_headers at h ⊢
  by_cases h0 : env.set_type = ESP_OK
  · by_cases h1 : env.set_hdr 0 = ESP_OK
    · by_cases h2 : env.set_hdr 1 = ESP_OK
      · simp only [h0, h1, h2, ne_eq, not_true_eq_false, if_false] at h ⊢
        simp [h]
      · simp [h0, h1, h2] at h
    · simp [h0, h1] at h
  · simp [h0] at h

theorem set_response_headers_setup (env : Env) :
    ∀ ev ∈ (set_response_headers env).2, ev.is_setup = true := by
  unfold set_response_headers
  by_cases h0 : env.set_type = ESP_OK <;> by_cases h1 : env.set_hdr 0 = ESP_OK <;>
    by_cases h2 : env.set_hdr 1 = ESP_OK <;> simp [h0, h1, h2, Event.is_setup]

/-! ## JPEG frames followed by a capture failure -/

theorem loop_body_jpeg_ok (env : Env) (sent : Nat) (f : camera_fb_t)
    (hf : f.format = PIXFORMAT_JPEG) (h1 : env.send_chunk sent = ESP_OK)
    (h2 : env.send_chunk (sent + 1) = ESP_OK) (h3 : env.send_chunk (sent + 2) = ESP_OK) :
    loop_body env sent (some f)
      = (ESP_OK, [Event.fb_get (some f), Event.send_chunk (header_chunk f.len) ESP_OK,
          Event.send_chunk ⟨some f.buf, f.len⟩ ESP_OK, Event.send_chunk trailer_chunk ESP_OK,
          Event.fb_return f]) := by
  simp [loop_body, process_frame, send_jpeg_frame, release_after_send, release_on_exit, hf, h1,
    h2, h3]

theorem stream_loop_cons (env : Env) (got : Option camera_fb_t)
    (rest : List (Option camera_fb_t)) (sent : Nat) :
    stream_loop env (got :: rest) sent
      = if (loop_body env sent got).1 ≠ ESP_OK then
          (some (loop_body env sent got).1, (loop_body env sent got).2)
        else
          ((stream_loop env rest (sent + sends (loop_body env sent got).2)).1,
            (loop_body env sent got).2
              ++ (stream_loop env rest (sent + sends (loop_body env sent got).2)).2) := rfl

theorem stream_loop_jpeg (env : Env) (hsend : ∀ i, env.send_chunk i = ESP_OK)
    (frames : List camera_fb_t) (hjpeg : ∀ f ∈ frames, f.format = PIXFORMAT_JPEG) (sent : Nat) :
    stream_loop env (frames.map some ++ [none]) sent
      = (some ESP_FAIL, frames.flatMap jpeg_pass ++ [Event.fb_get none]) := by
  induction frames generalizing sent with
  | nil => simp [stream_loop, loop_body]
  | cons f fs ih =>
    have hb := loop_body_jpeg_ok env sent f (hjpeg f (by simp)) (hsend _) (hsend _) (hsend _)
    rw [List.map_cons, List.cons_append, stream_loop_cons, hb]
    simp only [ne_eq, not_true_eq_false, if_false]
    rw [ih (fun g hg => hjpeg g (by simp [hg]))]
    simp [jpeg_pass]

theorem chunk_sizes_jpeg (frames : List camera_fb_t) (rest : List Event) :
    chunk_sizes (frames.flatMap jpeg_pass ++ rest)
      = frames.flatMap (fun f => [(header_text f.len).length, f.len, 13]) ++ chunk_sizes rest := by
  induction frames with
  | nil => simp
  | cons f fs ih =>
    simp only [List.flatMap_cons, List.append_assoc]
    rw [show chunk_sizes (jpeg_pass f ++ (fs.flatMap jpeg_pass ++ rest))
      = chunk_sizes (jpeg_pass f) ++ chunk_sizes (fs.flatMap jpeg_pass ++ rest) from
        List.filterMap_append _ _ _, ih]
    simp [jpeg_pass, chunk_sizes, header_chunk_len, trailer_chunk]

theorem frame_calls_jpeg (frames : List camera_fb_t) (rest : List Event) :
    frame_calls (frames.flatMap jpeg_pass ++ rest)
      = frames.flatMap (fun f => [Event.fb_get (some f), Event.fb_return f])
        ++ frame_calls rest := by
  induction frames with
  | nil => simp
  | cons f fs ih =>
    simp only [List.flatMap_cons, List.append_assoc]
    rw [show frame_calls (jpeg_pass f ++ (fs.flatMap jpeg_pass ++ rest))
      = frame_calls (jpeg_pass f) ++ frame_calls (fs.flatMap jpeg_pass ++ rest) from
        List.filter_append _ _, ih]
    simp [jpeg_pass, frame_calls]

theorem sends_eq_length_chunk_sizes (events : List Event) :
    sends events = (chunk_sizes events).length := by
  induction events with
  | nil => rfl
  | cons e es ih =>
    cases e <;> simp_all [sends, chunk_sizes, List.filter_cons, List.filterMap_cons]

theorem length_flatMap_three (frames : List camera_fb_t) (g : camera_fb_t → List Nat)
    (hg : ∀ f, (g f).length = 3) : (frames.flatMap g).length = 3 * frames.length := by
  induction frames with
  | nil => rfl
  | cons f fs ih =>
    rw [List.flatMap_cons, List.length_append, ih, hg, List.length_cons]
    omega


/-! ## Send failures -/

theorem stops_at_failed_send_split (r : Option esp_err_t) (pre post : List Event) (c : Chunk)
    (e : esp_err_t) (h : stops_at_failed_send r (pre ++ Event.send_chunk c e :: post))
    (he : e ≠ ESP_OK) : r = some e ∧ ∀ ev ∈ post, ev.quiet = true := by
  induction pre with
  | nil => exact h.1 he
  | cons x pre ih =>
    cases x <;> first
      | exact ih h
      | exact ih h.2

theorem stops_of_all_sends_ok (r : Option esp_err_t) (l1 l2 : List Event)
    (h1 : all_sends_ok l1) (h2 : stops_at_failed_send r l2) :
    stops_at_failed_send r (l1 ++ l2) := by
  induction l1 with
  | nil => exact h2
  | cons x l1 ih =>
    have ih1 := ih (fun c e hm => h1 c e (List.mem_cons_of_mem _ hm))
    cases x with
    | send_chunk c e =>
      refine ⟨fun he => absurd (h1 c e (List.mem_cons_self _ _)) he, ih1⟩
    | set_type _ _ => exact ih1
    | set_hdr _ _ _ => exact ih1
    | fb_get _ => exact ih1
    | frame2jpg _ _ => exact ih1
    | fb_return _ => exact ih1
    | free _ => exact ih1

theorem stops_nil_of_all_sends_ok (r : Option esp_err_t) (l : List Event)
    (h : all_sends_ok l) : stops_at_failed_send r l := by
  have := stops_of_all_sends_ok r l [] h trivial
  simpa using this

theorem all_sends_ok_of_setup (l : List Event) (h : ∀ ev ∈ l, ev.is_setup = true) :
    all_sends_ok l := by
  intro c e hm
  have := h _ hm
  simp [Event.is_setup] at this

theorem send_jpeg_frame_stops (env : Env) (sent : Nat) (jb : Option (List Nat)) (sz : Nat) :
    stops_at_failed_send (some (send_jpeg_frame env sent jb sz).1)
      (send_jpeg_frame env sent jb sz).2 := by
  unfold send_jpeg_frame
  by_cases h1 : env.send_chunk sent = ESP_OK <;>
    by_cases h2 : env.send_chunk (sent + 1) = ESP_OK <;>
    by_cases h3 : env.send_chunk (sent + 2) = ESP_OK <;>
    simp [h1, h2, h3, stops_at_failed_send]

theorem send_jpeg_frame_ok (env : Env) (sent : Nat) (jb : Option (List Nat)) (sz : Nat)
    (h : (send_jpeg_frame env sent jb sz).1 = ESP_OK) :
    all_sends_ok (send_jpeg_frame env sent jb sz).2 := by
  unfold send_jpeg_frame at h ⊢
  intro c e hm
  by_cases h1 : env.send_chunk sent = ESP_OK <;>
    by_cases h2 : env.send_chunk (sent + 1) = ESP_OK <;>
    by_cases h3 : env.send_chunk (sent + 2) = ESP_OK <;>
    simp [h1, h2, h3] at h hm
  rcases hm with hm | hm | hm <;> simp [hm.2, h1, h2, h3]

theorem send_jpeg_frame_only_sends (env : Env) (sent : Nat) (jb : Option (List Nat)) (sz : Nat) :
    ∀ ev ∈ (send_jpeg_frame env sent jb sz).2, ev.quiet = false := by
  unfold send_jpeg_frame
  by_cases h1 : env.send_chunk sent = ESP_OK <;>
    by_cases h2 : env.send_chunk (sent + 1) = ESP_OK <;>
    simp [h1, h2, Event.quiet]

theorem process_frame_no_send (env : Env) (f : camera_fb_t) (c : Chunk) (e : esp_err_t) :
    Event.send_chunk c e ∉ (process_frame env f).events := by
  unfold process_frame
  by_cases hf : f.format = PIXFORMAT_JPEG <;>
    by_cases hc : (env.frame2jpg f 80).converted = true <;> simp [hf, hc]

theorem release_after_send_no_send (f : camera_fb_t) (jb : Option (List Nat)) (c : Chunk)
    (e : esp_err_t) : Event.send_chunk c e ∉ release_after_send f jb := by
  unfold release_after_send
  split_ifs
  · simp
  · cases jb <;> simp

theorem release_on_exit_no_send (r : esp_err_t) (f : camera_fb_t) (c : Chunk)
    (e : esp_err_t) : Event.send_chunk c e ∉ release_on_exit r f := by
  unfold release_on_exit
  split_ifs <;> simp

theorem loop_body_ok (env : Env) (sent : Nat) (got : Option camera_fb_t)
    (h : (loop_body env sent got).1 = ESP_OK) : all_sends_ok (loop_body env sent got).2 := by
  cases got with
  | none => simp [loop_body] at h
  | some f =>
    simp only [loop_body] at h ⊢
    by_cases hp : (process_frame env f).result = ESP_OK
    · simp only [hp, if_true] at h ⊢
      have hs := send_jpeg_frame_ok env sent _ _ h
      intro c e hm
      simp only [List.cons_append, List.mem_cons, List.mem_append] at hm
      rcases hm with hm | ((hm | hm) | hm) | hm
      · cases hm
      · exact absurd hm (process_frame_no_send env f c e)
      · exact hs c e hm
      · exact absurd hm (release_after_send_no_send _ _ c e)
      · exact absurd hm (release_on_exit_no_send _ _ c e)
    · simp only [hp, if_false] at h

theorem process_frame_quiet (env : Env) (f : camera_fb_t) :
    ∀ ev ∈ (process_frame env f).events, ev.quiet = true := by
  unfold process_frame
  by_cases hf : f.format = PIXFORMAT_JPEG <;>
    by_cases hc : (env.frame2jpg f 80).converted = true <;> simp [hf, hc, Event.quiet]

theorem release_after_send_quiet (f : camera_fb_t) (jb : Option (List Nat)) :
    ∀ ev ∈ release_after_send f jb, ev.quiet = true := by
  unfold release_after_send
  split_ifs
  · simp [Event.quiet]
  · cases jb <;> simp [Event.quiet]

theorem release_on_exit_quiet (r : esp_err_t) (f : camera_fb_t) :
    ∀ ev ∈ release_on_exit r f, ev.quiet = true := by
  unfold release_on_exit
  split_ifs <;> simp [Event.quiet]

theorem stops_append_quiet (r : Option esp_err_t) (l1 l2 : List Event)
    (h1 : stops_at_failed_send r l1) (h2 : ∀ ev ∈ l2, ev.quiet = true) :
    stops_at_failed_send r (l1 ++ l2) := by
  induction l1 with
  | nil =>
    apply stops_nil_of_all_sends_ok
    intro c e hm
    have := h2 _ hm
    simp [Event.quiet] at this
  | cons x l1 ih =>
    cases x with
    | send_chunk c e =>
      refine ⟨fun he => ⟨(h1.1 he).1, ?_⟩, ih h1.2⟩
      intro ev hev
      rcases List.mem_append.mp hev with hm | hm
      · exact (h1.1 he).2 ev hm
      · exact h2 ev hm
    | set_type _ _ => exact ih h1
    | set_hdr _ _ _ => exact ih h1
    | fb_get _ => exact ih h1
    | frame2jpg _ _ => exact ih h1
    | fb_return _ => exact ih h1
    | free _ => exact ih h1

theorem loop_body_stops (env : Env) (sent : Nat) (got : Option camera_fb_t) :
    stops_at_failed_send (some (loop_body env sent got).1) (loop_body env sent got).2 := by
  cases got with
  | none => simp [loop_body, stops_at_failed_send]
  | some f =>
    simp only [loop_body]
    by_cases hp : (process_frame env f).result = ESP_OK
    · simp only [hp, if_true]
      have h1 : all_sends_ok (Event.fb_get (some f) :: (process_frame env f).events) := by
        intro c e hm
        rcases List.mem_cons.mp hm with hm | hm
        · cases hm
        · exact absurd hm (process_frame_no_send env f c e)
      have h2 := send_jpeg_frame_stops env sent (process_frame env f).jpeg_buffer
        (process_frame env f).jpeg_buffer_size
      have h3 := stops_append_quiet _ _ _ (stops_append_quiet _ _ _ h2
        (release_after_send_quiet f (process_frame env f).jpeg_buffer))
        (release_on_exit_quiet (send_jpeg_frame env sent (process_frame env f).jpeg_buffer
          (process_frame env f).jpeg_buffer_size).1 f)
      have h4 := stops_of_all_sends_ok _ _ _ h1 h3
      simpa [List.append_assoc] using h4
    · simp only [hp, if_false]
      apply stops_nil_of_all_sends_ok
      intro c e hm
      simp only [List.cons_append, List.mem_cons, List.mem_append, List.append_nil,
        List.not_mem_nil, or_false] at hm
      rcases hm with hm | (hm | hm) | hm
      · cases hm
      · exact absurd hm (process_frame_no_send env f c e)
      · exact absurd hm (release_after_send_no_send _ _ c e)
      · exact absurd hm (release_on_exit_no_send _ _ c e)

theorem stream_loop_stops (env : Env) (captures : List (Option camera_fb_t)) (sent : Nat) :
    stops_at_failed_send (stream_loop env captures sent).1 (stream_loop env captures sent).2 := by
  induction captures generalizing sent with
  | nil => simp [stream_loop, stops_at_failed_send]
  | cons got rest ih =>
    rw [stream_loop_cons]
    by_cases hb : (loop_body env sent got).1 = ESP_OK
    · simp only [hb, ne_eq, not_true_eq_false, if_false]
      exact stops_of_all_sends_ok _ _ _ (loop_body_ok env sent got hb) (ih _)
    · simp only [ne_eq, hb, not_false_eq_true, if_true]
      exact loop_body_stops env sent got

theorem stream_handler_stops (env : Env) (captures : List (Option camera_fb_t)) :
    stops_at_failed_send (stream_handler env captures).1 (stream_handler env captures).2 := by
  have hs := all_sends_ok_of_setup _ (set_response_headers_setup env)
  unfold stream_handler
  by_cases h : (set_response_headers env).1 = ESP_OK
  · simp only [h, ne_eq, not_true_eq_false, if_false]
    exact stops_of_all_sends_ok _ _ _ hs (stream_loop_stops env captures 0)
  · simp only [ne_eq, h, not_false_eq_true, if_true]
    exact stops_nil_of_all_sends_ok _ _ hs


/-! ## Static capture mode -/

theorem save_name_stored (j : Nat) (hj : j < 2 ^ 32) :
    (snprintf 50 (save_name_text j)).stored = save_name_text j ++ [0] := by
  have hl := decimal_length_le j 10 (by norm_num) (by omega)
  have h1 : (bytes "/sdcard/picture").length = 15 := by decide
  have h2 : (bytes ".jpg").length = 4 := by decide
  have hlen : (save_name_text j).length ≤ 49 := by
    simp only [save_name_text, List.length_append, h1, h2]
    omega
  simp [snprintf, List.take_of_length_le hlen]

theorem poll_step_saved (c : Nat) (p : Poll) (hs : p.save_reported = true) :
    (poll_step c p).1 = (c + 1) % 2 ^ 32
      ∧ opened_files (poll_step c p).2 = [(snprintf 50 (save_name_text c)).stored] := by
  obtain ⟨frame, ok, written, closed⟩ := p
  cases frame with
  | none => simp [Poll.save_reported] at hs
  | some f =>
    simp only [Poll.save_reported, Option.isSome_some, Bool.true_and] at hs
    subst hs
    simp [poll_step, sdcard_save_picture, opened_files]

theorem poll_step_not_saved (c : Nat) (p : Poll) (hs : p.save_reported = false) :
    (poll_step c p).1 = c ∧ opened_files (poll_step c p).2 = [] := by
  obtain ⟨frame, ok, written, closed⟩ := p
  cases frame with
  | none => simp [poll_step, opened_files]
  | some f =>
    simp only [Poll.save_reported, Option.isSome_some, Bool.true_and] at hs
    subst hs
    simp [poll_step, sdcard_save_picture, opened_files]

theorem capture_loop_cons (p : Poll) (rest : List Poll) (c : Nat) :
    capture_loop (p :: rest) c
      = ((capture_loop rest (poll_step c p).1).1,
          (poll_step c p).2 ++ (capture_loop rest (poll_step c p).1).2) := rfl

theorem reported_count_cons (p : Poll) (rest : List Poll) :
    reported_count (p :: rest) = reported_count rest + (if p.save_reported = true then 1 else 0) := by
  simp [reported_count, List.countP_cons]

theorem capture_loop_counts (polls : List Poll) (c : Nat)
    (h : c + reported_count polls < 2 ^ 32) :
    (capture_loop polls c).1 = c + reported_count polls
      ∧ opened_files (capture_loop polls c).2
          = (List.range' c (reported_count polls)).map
              (fun j => (snprintf 50 (save_name_text j)).stored) := by
  induction polls generalizing c with
  | nil => simp [capture_loop, reported_count, opened_files]
  | cons p rest ih =>
    rw [capture_loop_cons]
    rw [reported_count_cons] at h ⊢
    have happ : ∀ a b : List CaptureEvent, opened_files (a ++ b)
        = opened_files a ++ opened_files b := fun a b => List.filterMap_append _ _ _
    by_cases hs : p.save_reported = true
    · have hp := poll_step_saved c p hs
      simp only [hs, if_true] at h ⊢
      have hmod : (c + 1) % 2 ^ 32 = c + 1 := Nat.mod_eq_of_lt (by omega)
      rw [hmod] at hp
      have := ih (c + 1) (by omega)
      simp only [hp.1, happ, hp.2, this.2]
      refine ⟨by rw [this.1]; omega, ?_⟩
      rw [show reported_count rest + 1 = (reported_count rest).succ from rfl, List.range'_succ]
      simp
    · have hs2 : p.save_reported = false := by simpa using hs
      have hp := poll_step_not_saved c p hs2
      simp only [hs2] at h ⊢
      have := ih c (by simpa using h)
      simp only [hp.1, happ, hp.2, this.2]
      refine ⟨by rw [this.1]; simp, ?_⟩
      simp

theorem opened_names_range (m : Nat) (hm : m ≤ 2 ^ 32) :
    (List.range' 0 m).map (fun j => (snprintf 50 (save_name_text j)).stored)
      = (List.range m).map (fun j => save_name_text j ++ [0]) := by
  rw [List.range_eq_range']
  apply List.map_congr_left
  intro j hj
  have : j < m := by
    have := List.mem_range'_1.mp hj
    omega
  exact save_name_stored j (by omega)

theorem reported_count_append (a b : List Poll) :
    reported_count (a ++ b) = reported_count a + reported_count b := by
  simp [reported_count, List.countP_append]

theorem capture_loop_replicate (p : Poll) (hs : p.save_reported = true) (n c : Nat)
    (hc : c < 2 ^ 32) :
    (capture_loop (List.replicate n p) c).1 = (c + n) % 2 ^ 32 := by
  induction n generalizing c with
  | zero =>
    simp only [List.replicate_zero, capture_loop, Nat.add_zero]
    omega
  | succ n ih =>
    rw [List.replicate_succ, capture_loop_cons, (poll_step_saved c p hs).1,
      ih _ (Nat.mod_lt _ (by norm_num))]
    omega

/-! ## Release actions of one pass of the stream loop (C1, C2) -/

/-- For a JPEG frame the pass makes one release action when it succeeds and two
when it fails: the frame is returned at lines 121-122 and again at lines
129-130. -/
theorem jpeg_pass_release_actions (env : Env) (sent : Nat) (f : camera_fb_t)
    (hf : f.format = PIXFORMAT_JPEG) :
    release_actions (loop_body env sent (some f)).2
      = if (loop_body env sent (some f)).1 = ESP_OK then 1 else 2 := by
  by_cases h1 : env.send_chunk sent = ESP_OK <;>
    by_cases h2 : env.send_chunk (sent + 1) = ESP_OK <;>
    by_cases h3 : env.send_chunk (sent + 2) = ESP_OK <;>
    simp [loop_body, process_frame, send_jpeg_frame, release_after_send, release_on_exit,
      release_actions, hf, h1, h2, h3]

/-- Claim C1, evaluated on the code: for a JPEG frame whose first, second or
third chunk send fails, the pass performs two release actions, not one. The
last conjunct shows the calls when the first send fails: the frame is returned
to the driver twice. -/
theorem jpeg_frame_released_twice_on_send_failure :
    release_actions (loop_body (session_env transcode_failed
        (fun i => if i = 0 then ESP_FAIL else ESP_OK)) 0 (some sample_jpeg)).2 = 2
      ∧ release_actions (loop_body (session_env transcode_failed
        (fun i => if i = 1 then ESP_FAIL else ESP_OK)) 0 (some sample_jpeg)).2 = 2
      ∧ release_actions (loop_body (session_env transcode_failed
        (fun i => if i = 2 then ESP_FAIL else ESP_OK)) 0 (some sample_jpeg)).2 = 2
      ∧ loop_body (session_env transcode_failed
        (fun i => if i = 0 then ESP_FAIL else ESP_OK)) 0 (some sample_jpeg)
          = (ESP_FAIL, [Event.fb_get (some sample_jpeg),
              Event.send_chunk (header_chunk 4) ESP_FAIL,
              Event.fb_return sample_jpeg, Event.fb_return sample_jpeg]) :=
  ⟨by decide, by decide, by decide, rfl⟩

/-- A frame that is not JPEG and that the transcoder converts is never handed
back to the driver by the pass, whatever the sends return. -/
theorem transcoded_frame_never_returned (env : Env) (sent : Nat) (f : camera_fb_t)
    (hf : f.format ≠ PIXFORMAT_JPEG) (hc : (env.frame2jpg f 80).converted = true) :
    fb_returns (loop_body env sent (some f)).2 = 0 := by
  by_cases h1 : env.send_chunk sent = ESP_OK <;>
    by_cases h2 : env.send_chunk (sent + 1) = ESP_OK <;>
    by_cases h3 : env.send_chunk (sent + 2) = ESP_OK <;>
    cases ho : (env.frame2jpg f 80).out <;>
    simp [loop_body, process_frame, send_jpeg_frame, release_after_send, release_on_exit,
      fb_returns, hf, hc, h1, h2, h3, ho]

/-- Claim C2, evaluated on the code: a JPEG frame whose third chunk send fails
is returned to the driver twice, and a RGB565 frame that is transcoded and sent
successfully is never returned to the driver (only the transcoded buffer is
freed). The last conjunct lists the calls of that pass. -/
theorem frame_return_count_not_one :
    fb_returns (loop_body (session_env transcode_failed
        (fun i => if i = 2 then ESP_FAIL else ESP_OK)) 0 (some sample_jpeg)).2 = 2
      ∧ fb_returns (loop_body (session_env ⟨true, some [255, 216, 255, 217], 4⟩
        (fun _ => ESP_OK)) 0 (some sample_rgb565)).2 = 0
      ∧ loop_body (session_env ⟨true, some [255, 216, 255, 217], 4⟩
        (fun _ => ESP_OK)) 0 (some sample_rgb565)
          = (ESP_OK, [Event.fb_get (some sample_rgb565), Event.frame2jpg sample_rgb565 80,
              Event.send_chunk (header_chunk 4) ESP_OK,
              Event.send_chunk ⟨some [255, 216, 255, 217], 4⟩ ESP_OK,
              Event.send_chunk trailer_chunk ESP_OK,
              Event.free [255, 216, 255, 217]]) :=
  ⟨by decide, by decide, rfl⟩

/-! ## The three chunks of a frame (C3, C4, C5, C6) -/

/-- Claim C3: when all three sends succeed, `send_jpeg_frame` makes exactly
three chunk sends, in this order: the header chunk, whose size is the length of
the formatted header text, the payload chunk of size `N`, which reads exactly
the payload bytes, and the trailer chunk of size 13. Removing the header length
from the front and 13 bytes from the end of the concatenated chunks gives back
the payload, whatever lies in memory behind the objects sent. -/
theorem send_jpeg_frame_emits_three_chunks (env : Env) (sent : Nat) (payload : List Nat)
    (h1 : env.send_chunk sent = ESP_OK) (h2 : env.send_chunk (sent + 1) = ESP_OK)
    (h3 : env.send_chunk (sent + 2) = ESP_OK) :
    send_jpeg_frame env sent (some payload) payload.length
        = (ESP_OK, [Event.send_chunk (header_chunk payload.length) ESP_OK,
            Event.send_chunk ⟨some payload, payload.length⟩ ESP_OK,
            Event.send_chunk trailer_chunk ESP_OK])
      ∧ (header_chunk payload.length).len = (header_text payload.length).length
      ∧ trailer_chunk.len = 13
      ∧ (∀ beyond, Chunk.wire ⟨some payload, payload.length⟩ beyond = payload)
      ∧ (∀ b1 b2 b3, strip_framing (header_text payload.length).length 13
          ((header_chunk payload.length).wire b1 ++ Chunk.wire ⟨some payload, payload.length⟩ b2
            ++ trailer_chunk.wire b3) = payload) := by
  refine ⟨?_, rfl, rfl, wire_payload payload, ?_⟩
  · simp [send_jpeg_frame, h1, h2, h3]
  · intro b1 b2 b3
    have e1 := wire_length (header_chunk payload.length) b1
    have e3 := wire_length trailer_chunk b3
    rw [wire_payload]
    have := strip_framing_append ((header_chunk payload.length).wire b1)
      (trailer_chunk.wire b3) payload
    rw [e1, e3, header_chunk_len] at this
    exact this

/-- Claim C3 at a four byte payload with every send succeeding: three sends,
of sizes 58, 4 and 13. -/
theorem send_jpeg_frame_emits_three_chunks_witness :
    send_jpeg_frame (session_env transcode_failed (fun _ => ESP_OK)) 0
        (some [255, 216, 255, 217]) 4
        = (ESP_OK, [Event.send_chunk (header_chunk 4) ESP_OK,
            Event.send_chunk ⟨some [255, 216, 255, 217], 4⟩ ESP_OK,
            Event.send_chunk trailer_chunk ESP_OK])
      ∧ (header_chunk 4).len = 58
      ∧ trailer_chunk.len = 13
      ∧ (∀ b1 b2 b3, strip_framing 58 13
          ((header_chunk 4).wire b1 ++ Chunk.wire ⟨some [255, 216, 255, 217], 4⟩ b2
            ++ trailer_chunk.wire b3) = [255, 216, 255, 217]) := by
  have h := send_jpeg_frame_emits_three_chunks
    (session_env transcode_failed (fun _ => ESP_OK)) 0 [255, 216, 255, 217] rfl rfl rfl
  have e : (header_text 4).length = 58 := by rw [header_text_length]; simp [decimal]
  simp only [List.length_cons, List.length_nil, Nat.zero_add, Nat.reduceAdd, e] at h
  exact ⟨h.1, h.2.1, h.2.2.1, h.2.2.2.2⟩

/-- Once the text has 63 bytes or more, `part_buffer` holds 64 bytes. -/
theorem snprintf_stored_length_full (t : List Nat) (h : 63 ≤ t.length) :
    (snprintf 64 t).stored.length = 64 := by
  rw [snprintf_stored, List.length_append, List.length_take, List.length_singleton]
  omega

theorem decimal_ten_million : decimal 10000000 = [49, 48, 48, 48, 48, 48, 48, 48] := by
  simp [decimal]

/-- Claim C4, evaluated on the code at `N = 1000000`, a value of `size_t`: the
header text has 64 bytes, `snprintf` stores 63 of them and a NUL and returns
64, and the code sends 64 bytes, so the chunk is not the text, whatever lies
behind the buffer. At `N = 10000000` the length sent is 65 while `part_buffer`
holds 64 bytes: the send reads past the buffer. -/
theorem header_chunk_truncated_at_million :
    (1000000 : Nat) < 2 ^ 32
      ∧ (¬ ∃ beyond, (header_chunk 1000000).wire beyond = header_text 1000000)
      ∧ (header_chunk 1000000).len = 64
      ∧ (header_chunk 1000000).buf = some ((header_text 1000000).take 63 ++ [0])
      ∧ (header_chunk 10000000).len = 65
      ∧ ((header_chunk 10000000).buf.getD []).length = 64 := by
  have hlen : (header_text 1000000).length = 64 := by
    rw [header_text_length, decimal_million]; rfl
  have hlen2 : (header_text 10000000).length = 65 := by
    rw [header_text_length, decimal_ten_million]; rfl
  refine ⟨by norm_num, ?_, hlen, ?_, hlen2, ?_⟩
  · rintro ⟨beyond, h⟩
    have hw : (header_chunk 1000000).wire beyond = (header_text 1000000).take 63 ++ [0] :=
      wire_snprintf_full (header_text 1000000) beyond hlen
    rw [hw] at h
    have := congrArg List.getLast? h
    simp [header_text, header_tail_eq] at this
  · rw [show (header_chunk 1000000).buf = some (snprintf 64 (header_text 1000000)).stored
      from rfl, snprintf_stored]
  · rw [show (header_chunk 10000000).buf = some (snprintf 64 (header_text 10000000)).stored
      from rfl, Option.getD_some]
    exact snprintf_stored_length_full _ (by omega)

/-- Below 1000000 the header chunk is byte for byte the header text for `N` (the
format string with `N` in decimal), and its size is the length of that
text. -/
theorem header_chunk_exact_below_million (n : Nat) (hn : n < 1000000) (beyond : Nat → Nat) :
    (header_chunk n).wire beyond = header_text n
      ∧ (header_chunk n).len = (header_text n).length
      ∧ header_text n = header_lead ++ decimal n ++ header_tail := by
  have hl := decimal_length_le n 6 (by norm_num) (by norm_num; exact hn)
  refine ⟨header_chunk_wire_of_fits n ?_ beyond, rfl, rfl⟩
  rw [header_text_length]; omega

/-- At `N = 999999` the chunk is the 63 byte text with
`Content-Length: 999999`. -/
theorem header_chunk_exact_at_999999 :
    (header_chunk 999999).wire (fun _ => 0)
        = bytes "\r\n--frame\r\nContent-Type: image/jpeg\r\nContent-Length: 999999\r\n\r\n"
      ∧ (header_chunk 999999).len = 63 := by
  have h := header_chunk_exact_below_million 999999 (by norm_num) (fun _ => 0)
  have e : header_text 999999
      = bytes "\r\n--frame\r\nContent-Type: image/jpeg\r\nContent-Length: 999999\r\n\r\n" := by
    have d : decimal 999999 = [57, 57, 57, 57, 57, 57] := by simp [decimal]
    rw [header_text, d]
    decide
  rw [e] at h
  exact ⟨h.1, h.2.1.trans (by decide)⟩

/-- Claim C5, evaluated on the code: the literal `"\r\n--frame\r\n"` has 11
characters, while the last send of `send_jpeg_frame` passes the length 13. The
chunk is then the 11 characters, the terminating NUL of the literal and one
byte from behind the literal (170 in this evaluation), so it is not the
literal. -/
theorem trailer_chunk_reads_past_literal :
    (bytes "\r\n--frame\r\n").length = 11
      ∧ (send_jpeg_frame (session_env transcode_failed (fun _ => ESP_OK)) 0
          (some [255, 216, 255, 217]) 4).2.getLast?
          = some (Event.send_chunk trailer_chunk ESP_OK)
      ∧ trailer_chunk.len = 13
      ∧ trailer_chunk.buf = some (bytes "\r\n--frame\r\n" ++ [0])
      ∧ trailer_chunk.wire (fun _ => 170) = bytes "\r\n--frame\r\n" ++ [0, 170]
      ∧ trailer_chunk.wire (fun _ => 170) ≠ bytes "\r\n--frame\r\n" :=
  ⟨by decide, rfl, rfl, rfl, by decide, by decide⟩

/-- With a ten digit length the digits fill `part_buffer` up to its last byte:
a NUL and not a carriage return follows them in the chunk, and the field does
not parse, whatever lies behind the buffer. -/
theorem parse_content_length_ten_digits (n : Nat) (hd : (decimal n).length = 10)
    (beyond : Nat → Nat) :
    parse_content_length ((header_chunk n).wire beyond) = none := by
  have hA : (header_lead ++ decimal n).length = 63 := by
    rw [List.length_append, header_lead_length, hd]
  obtain ⟨W, hW⟩ := wire_snprintf_cut (header_lead ++ decimal n) header_tail beyond hA
    (by rw [header_tail_eq]; simp)
  have hc : (header_chunk n).wire beyond = header_lead ++ (decimal n ++ 0 :: W) := by
    rw [show header_chunk n = ⟨some (snprintf 64 (header_text n)).stored,
      (snprintf 64 (header_text n)).ret⟩ from rfl]
    rw [show header_text n = (header_lead ++ decimal n) ++ header_tail from rfl, hW]
    simp
  rw [hc, parse_content_length_of_nul _ _ (decimal_ne_cr _)]

theorem decimal_billion : decimal 1000000000 = [49, 48, 48, 48, 48, 48, 48, 48, 48, 48] := by
  simp [decimal]

/-- Claim C6, evaluated on the code at `N = 1000000000` and at
`N = 4294967295`, the largest `size_t`: the header text has 67 bytes, the code
sends 67 bytes from the 64 bytes of `part_buffer`, and in the chunk a NUL
follows the ten digits where the carriage return should be, so the field
between `Content-Length: ` and the next carriage return does not parse back to
`N`, whatever lies behind the buffer. -/
theorem content_length_field_cut_off :
    (1000000000 : Nat) < 2 ^ 32
      ∧ (header_chunk 1000000000).len = 67
      ∧ ((header_chunk 1000000000).buf.getD []).length = 64
      ∧ (¬ ∃ beyond, parse_content_length ((header_chunk 1000000000).wire beyond)
          = some 1000000000)
      ∧ (¬ ∃ beyond, parse_content_length ((header_chunk 4294967295).wire beyond)
          = some 4294967295) := by
  have hlen : (header_text 1000000000).length = 67 := by
    rw [header_text_length, decimal_billion]; rfl
  have hd1 : (decimal 1000000000).length = 10 := by rw [decimal_billion]; rfl
  have hd2 : (decimal 4294967295).length = 10 := by rw [decimal_max]; rfl
  refine ⟨by norm_num, hlen, ?_, ?_, ?_⟩
  · rw [show (header_chunk 1000000000).buf
      = some (snprintf 64 (header_text 1000000000)).stored from rfl, Option.getD_some]
    exact snprintf_stored_length_full _ (by omega)
  · rintro ⟨beyond, h⟩
    rw [parse_content_length_ten_digits _ hd1] at h
    exact Option.noConfusion h
  · rintro ⟨beyond, h⟩
    rw [parse_content_length_ten_digits _ hd2] at h
    exact Option.noConfusion h

/-- At `N = 4294967295`, the largest `size_t`, the ten digits fill
`part_buffer` up to its last byte, so a NUL and not a carriage return follows
them in the chunk, and the field does not parse back to `N`, whatever lies
behind the buffer. -/
theorem content_length_lost_at_max :
    (4294967295 : Nat) < 2 ^ 32
      ∧ ¬ ∃ beyond, parse_content_length ((header_chunk 4294967295).wire beyond)
          = some 4294967295 := by
  refine ⟨by norm_num, ?_⟩
  rintro ⟨beyond, h⟩
  have hA : (header_lead ++ decimal 4294967295).length = 63 := by
    rw [List.length_append, header_lead_length, decimal_max]; rfl
  obtain ⟨W, hW⟩ := wire_snprintf_cut (header_lead ++ decimal 4294967295) header_tail beyond hA
    (by rw [header_tail_eq]; simp)
  have hc : (header_chunk 4294967295).wire beyond
      = header_lead ++ (decimal 4294967295 ++ 0 :: W) := by
    rw [show header_chunk 4294967295 = ⟨some (snprintf 64 (header_text 4294967295)).stored,
      (snprintf 64 (header_text 4294967295)).ret⟩ from rfl]
    rw [show header_text 4294967295 = (header_lead ++ decimal 4294967295) ++ header_tail from rfl,
      hW]
    simp
  rw [hc, parse_content_length_of_nul _ _ (decimal_ne_cr _)] at h
  exact Option.noConfusion h

/-- For `N < 1000000000` the digits and the carriage return after them lie
within the first 63 bytes of the text, so they are stored in `part_buffer`
and the field parses back to `N`. From `N = 10000000` on the chunk is longer
than the buffer; the statement then holds whatever lies behind it. -/
theorem content_length_parses_back (n : Nat) (hn : n < 1000000000) (beyond : Nat → Nat) :
    parse_content_length ((header_chunk n).wire beyond) = some n := by
  have hl := decimal_length_le n 9 (by norm_num) (by norm_num; exact hn)
  have hA : (header_lead ++ (decimal n ++ [13])).length ≤ 63 := by
    simp only [List.length_append, header_lead_length, List.length_cons, List.length_nil]
    omega
  obtain ⟨W, hW⟩ := wire_snprintf_lead (header_lead ++ (decimal n ++ [13])) [10, 13, 10] beyond hA
  rw [← header_text_split] at hW
  have hc : (header_chunk n).wire beyond = header_lead ++ (decimal n ++ 13 :: W) := by
    rw [show header_chunk n = ⟨some (snprintf 64 (header_text n)).stored,
      (snprintf 64 (header_text n)).ret⟩ from rfl, hW]
    simp
  rw [hc, parse_content_length, content_length_field_of_cr _ _ (decimal_ne_cr n)]
  exact parse_decimal_decimal n

/-- The field parses back at 999999999 and at 0. -/
theorem content_length_parses_back_examples :
    parse_content_length ((header_chunk 999999999).wire (fun _ => 0)) = some 999999999
      ∧ parse_content_length ((header_chunk 0).wire (fun _ => 0)) = some 0 :=
  ⟨content_length_parses_back 999999999 (by norm_num) (fun _ => 0),
    content_length_parses_back 0 (by norm_num) (fun _ => 0)⟩

/-! ## A run of JPEG frames (C7) -/

/-- Claim C7: when header setup and every chunk send succeed and the driver
hands out the JPEG frames `frames` and then fails, `stream_handler` returns
`ESP_FAIL`; it has sent three chunks per frame, of sizes header length, frame
length and 13, in frame order; and the frame calls are, for each frame in
order, its acquisition followed by exactly one return, then the failed
acquisition. -/
theorem jpeg_frames_then_capture_failure (env : Env) (frames : List camera_fb_t)
    (hsetup : (set_response_headers env).1 = ESP_OK)
    (hsend : ∀ i, env.send_chunk i = ESP_OK)
    (hjpeg : ∀ f ∈ frames, f.format = PIXFORMAT_JPEG) :
    (stream_handler env (frames.map some ++ [none])).1 = some ESP_FAIL
      ∧ chunk_sizes (stream_handler env (frames.map some ++ [none])).2
          = frames.flatMap (fun f => [(header_text f.len).length, f.len, 13])
      ∧ sends (stream_handler env (frames.map some ++ [none])).2 = 3 * frames.length
      ∧ frame_calls (stream_handler env (frames.map some ++ [none])).2
          = frames.flatMap (fun f => [Event.fb_get (some f), Event.fb_return f])
            ++ [Event.fb_get none] := by
  have hrun : stream_handler env (frames.map some ++ [none])
      = (some ESP_FAIL, (set_response_headers env).2
          ++ (frames.flatMap jpeg_pass ++ [Event.fb_get none])) := by
    simp only [stream_handler, hsetup, ne_eq, not_true_eq_false, if_false,
      stream_loop_jpeg env hsend frames hjpeg 0]
  have hsizes : chunk_sizes (stream_handler env (frames.map some ++ [none])).2
      = frames.flatMap (fun f => [(header_text f.len).length, f.len, 13]) := by
    rw [hrun, set_response_headers_ok env hsetup]
    simp only [List.cons_append, List.nil_append]
    simp only [chunk_sizes, List.filterMap_cons]
    have := chunk_sizes_jpeg frames [Event.fb_get none]
    simp only [chunk_sizes] at this
    rw [this]
    simp
  refine ⟨by rw [hrun], hsizes, ?_, ?_⟩
  · rw [sends_eq_length_chunk_sizes, hsizes]
    exact length_flatMap_three frames _ (fun _ => rfl)
  · rw [hrun, set_response_headers_ok env hsetup]
    simp only [List.cons_append, List.nil_append]
    simp only [frame_calls, List.filter_cons]
    have := frame_calls_jpeg frames [Event.fb_get none]
    simp only [frame_calls] at this
    rw [this]
    simp

/-- Claim C7 at JPEG frames of lengths 100, 200 and 50: nine chunks of sizes
(60, 100, 13), (60, 200, 13), (59, 50, 13), result `ESP_FAIL`, each frame
returned once. -/
theorem jpeg_frames_then_capture_failure_witness :
    (stream_handler (session_env transcode_failed (fun _ => ESP_OK))
        [some (jpeg_of_length 100), some (jpeg_of_length 200), some (jpeg_of_length 50),
          none]).1 = some ESP_FAIL
      ∧ chunk_sizes (stream_handler (session_env transcode_failed (fun _ => ESP_OK))
        [some (jpeg_of_length 100), some (jpeg_of_length 200), some (jpeg_of_length 50),
          none]).2 = [60, 100, 13, 60, 200, 13, 59, 50, 13]
      ∧ sends (stream_handler (session_env transcode_failed (fun _ => ESP_OK))
        [some (jpeg_of_length 100), some (jpeg_of_length 200), some (jpeg_of_length 50),
          none]).2 = 9
      ∧ frame_calls (stream_handler (session_env transcode_failed (fun _ => ESP_OK))
        [some (jpeg_of_length 100), some (jpeg_of_length 200), some (jpeg_of_length 50),
          none]).2
        = [Event.fb_get (some (jpeg_of_length 100)), Event.fb_return (jpeg_of_length 100),
            Event.fb_get (some (jpeg_of_length 200)), Event.fb_return (jpeg_of_length 200),
            Event.fb_get (some (jpeg_of_length 50)), Event.fb_return (jpeg_of_length 50),
            Event.fb_get none] := by
  have h := jpeg_frames_then_capture_failure (session_env transcode_failed (fun _ => ESP_OK))
    [jpeg_of_length 100, jpeg_of_length 200, jpeg_of_length 50] rfl (fun _ => rfl)
    (by decide)
  have e1 : (header_text 100).length = 60 := by rw [header_text_length]; simp [decimal]
  have e2 : (header_text 200).length = 60 := by rw [header_text_length]; simp [decimal]
  have e3 : (header_text 50).length = 59 := by rw [header_text_length]; simp [decimal]
  simpa [jpeg_of_length, e1, e2, e3] using h

/-! ## Failures (C8, C9) -/

/-- Claim C8: if a chunk send of the session fails with code `e`, then
`stream_handler` returns `e` and every call made after that send is quiet: no
further frame is acquired and no further chunk is sent. Inside
`send_jpeg_frame` a failed send is the last call made and its code is the
value returned. -/
theorem send_failure_ends_session (env : Env) (captures : List (Option camera_fb_t))
    (pre post : List Event) (c : Chunk) (e : esp_err_t)
    (hev : (stream_handler env captures).2 = pre ++ Event.send_chunk c e :: post)
    (he : e ≠ ESP_OK) :
    (stream_handler env captures).1 = some e
      ∧ (∀ ev ∈ post, ev.quiet = true)
      ∧ (∀ sent jpeg_buffer jpeg_buffer_size before after c1 e1,
          (send_jpeg_frame env sent jpeg_buffer jpeg_buffer_size).2
              = before ++ Event.send_chunk c1 e1 :: after →
          e1 ≠ ESP_OK →
          after = [] ∧ (send_jpeg_frame env sent jpeg_buffer jpeg_buffer_size).1 = e1) := by
  have h := stream_handler_stops env captures
  rw [hev] at h
  have h1 := stops_at_failed_send_split _ pre post c e h he
  refine ⟨h1.1, h1.2, ?_⟩
  intro sent jb sz before after c1 e1 hsplit he1
  have hs := send_jpeg_frame_stops env sent jb sz
  rw [hsplit] at hs
  have h2 := stops_at_failed_send_split _ before after c1 e1 hs he1
  refine ⟨?_, Option.some.inj h2.1⟩
  cases after with
  | nil => rfl
  | cons a rest =>
    have hq := h2.2 a (List.mem_cons_self _ _)
    have hn := send_jpeg_frame_only_sends env sent jb sz a (by rw [hsplit]; simp)
    rw [hq] at hn
    exact absurd hn (by decide)

/-- Claim C8 on a session of three JPEG frames in which the fifth chunk send
(the payload of the second frame) fails with code 45063: the handler returns
45063 and only the two frame returns follow the failed send. -/
theorem send_failure_ends_session_witness :
    (stream_handler (session_env transcode_failed (fun i => if i = 4 then 45063 else ESP_OK))
        [some sample_jpeg, some sample_jpeg, some sample_jpeg]).1 = some 45063
      ∧ (∀ ev ∈ [Event.fb_return sample_jpeg, Event.fb_return sample_jpeg], ev.quiet = true)
      ∧ (∀ sent jpeg_buffer jpeg_buffer_size before after c1 e1,
          (send_jpeg_frame (session_env transcode_failed
              (fun i => if i = 4 then 45063 else ESP_OK)) sent jpeg_buffer jpeg_buffer_size).2
              = before ++ Event.send_chunk c1 e1 :: after →
          e1 ≠ ESP_OK →
          after = [] ∧ (send_jpeg_frame (session_env transcode_failed
              (fun i => if i = 4 then 45063 else ESP_OK)) sent jpeg_buffer jpeg_buffer_size).1
            = e1) :=
  send_failure_ends_session
    (session_env transcode_failed (fun i => if i = 4 then 45063 else ESP_OK))
    [some sample_jpeg, some sample_jpeg, some sample_jpeg]
    ((set_response_headers (session_env transcode_failed (fun _ => ESP_OK))).2
      ++ jpeg_pass sample_jpeg
      ++ [Event.fb_get (some sample_jpeg), Event.send_chunk (header_chunk 4) ESP_OK])
    [Event.fb_return sample_jpeg, Event.fb_return sample_jpeg]
    ⟨some sample_jpeg.buf, 4⟩ 45063 rfl (by decide)

/-- Claim C9: `set_response_headers` sets the content type and the three
headers in the order of the source and with its values; the first call that
fails is the last call made and its code is returned; and when setup fails
`stream_handler` returns that code having made only those setup calls, so no
frame is acquired and no chunk is sent. -/
theorem header_setup_failure_aborts (env : Env) (captures : List (Option camera_fb_t)) :
    (env.set_type ≠ ESP_OK →
        set_response_headers env = (env.set_type,
          [Event.set_type "multipart/x-mixed-replace; boundary=frame" env.set_type]))
      ∧ (env.set_type = ESP_OK → env.set_hdr 0 ≠ ESP_OK →
        set_response_headers env = (env.set_hdr 0,
          [Event.set_type "multipart/x-mixed-replace; boundary=frame" ESP_OK,
            Event.set_hdr "Access-Control-Allow-Origin" "*" (env.set_hdr 0)]))
      ∧ (env.set_type = ESP_OK → env.set_hdr 0 = ESP_OK → env.set_hdr 1 ≠ ESP_OK →
        set_response_headers env = (env.set_hdr 1,
          [Event.set_type "multipart/x-mixed-replace; boundary=frame" ESP_OK,
            Event.set_hdr "Access-Control-Allow-Origin" "*" ESP_OK,
            Event.set_hdr "X-Content-Type-Options" "nosniff" (env.set_hdr 1)]))
      ∧ (env.set_type = ESP_OK → env.set_hdr 0 = ESP_OK → env.set_hdr 1 = ESP_OK →
        set_response_headers env = (env.set_hdr 2,
          [Event.set_type "multipart/x-mixed-replace; boundary=frame" ESP_OK,
            Event.set_hdr "Access-Control-Allow-Origin" "*" ESP_OK,
            Event.set_hdr "X-Content-Type-Options" "nosniff" ESP_OK,
            Event.set_hdr "Cache-Control" "no-store, no-cache, must-revalidate, max-age=0"
              (env.set_hdr 2)]))
      ∧ ((set_response_headers env).1 ≠ ESP_OK →
        stream_handler env captures
            = (some (set_response_headers env).1, (set_response_headers env).2)
          ∧ ∀ ev ∈ (stream_handler env captures).2, ev.is_setup = true ∧ ev.quiet = true)
      ∧ ((set_response_headers env).1 = ESP_OK →
        (set_response_headers env).2
          = [Event.set_type "multipart/x-mixed-replace; boundary=frame" ESP_OK,
              Event.set_hdr "Access-Control-Allow-Origin" "*" ESP_OK,
              Event.set_hdr "X-Content-Type-Options" "nosniff" ESP_OK,
              Event.set_hdr "Cache-Control" "no-store, no-cache, must-revalidate, max-age=0"
                ESP_OK]) := by
  refine ⟨?_, ?_, ?_, ?_, ?_, set_response_headers_ok env⟩
  · intro h0
    simp [set_response_headers, h0]
  · intro h0 h1
    simp [set_response_headers, h0, h1]
  · intro h0 h1 h2
    simp [set_response_headers, h0, h1, h2]
  · intro h0 h1 h2
    simp [set_response_headers, h0, h1, h2]
  · intro h
    have hrun : stream_handler env captures
        = (some (set_response_headers env).1, (set_response_headers env).2) := by
      simp [stream_handler, h]
    refine ⟨hrun, ?_⟩
    rw [hrun]
    intro ev hev
    have hs := set_response_headers_setup env ev hev
    refine ⟨hs, ?_⟩
    cases ev <;> simp_all [Event.is_setup, Event.quiet]

/-- Claim C9 on a session whose second header call fails with code 259: two
setup calls are made, 259 is returned, and the waiting frame is not acquired. -/
theorem header_setup_failure_aborts_witness :
    stream_handler setup_fails_env
        [some sample_jpeg]
      = (some 259, [Event.set_type "multipart/x-mixed-replace; boundary=frame" ESP_OK,
          Event.set_hdr "Access-Control-Allow-Origin" "*" ESP_OK,
          Event.set_hdr "X-Content-Type-Options" "nosniff" 259]) := by
  have h := header_setup_failure_aborts setup_fails_env [some sample_jpeg]
  rw [(h.2.2.2.2.1 (by decide)).1, h.2.2.1 rfl rfl (by decide)]
  rfl

/-! ## The saved file counter (C10) -/

/-- One poll in which no write is lost after the file was opened: the counter
grows exactly when the write succeeded, and the poll adds its file to the
written files exactly then. -/
theorem poll_step_written (c : Nat) (p : Poll) (hno : p.write_lost = false)
    (rest : List CaptureEvent) :
    (poll_step c p).1 = (if p.write_succeeded = true then (c + 1) % 2 ^ 32 else c)
      ∧ written_files ((poll_step c p).2 ++ rest)
          = (if p.write_succeeded = true then [(snprintf 50 (save_name_text c)).stored] else [])
            ++ written_files rest := by
  obtain ⟨frame, ok, written, closed⟩ := p
  cases frame with
  | none => simp [poll_step, written_files, Poll.write_succeeded]
  | some f =>
    cases ok with
    | false => simp [poll_step, sdcard_save_picture, written_files, Poll.write_succeeded]
    | true =>
      have hw : written = f.len ∧ closed = 0 := by
        simpa [Poll.write_lost] using hno
      simp [poll_step, sdcard_save_picture, written_files, Poll.write_succeeded, hw.1, hw.2]

theorem written_count_cons (p : Poll) (rest : List Poll) :
    written_count (p :: rest)
      = written_count rest + (if p.write_succeeded = true then 1 else 0) := by
  simp [written_count, List.countP_cons]

theorem written_count_append (a b : List Poll) :
    written_count (a ++ b) = written_count a + written_count b := by
  simp [written_count, List.countP_append]

/-- The loop over polls none of which loses a write, as long as the counter
stays below `2 ^ 32`. -/
theorem capture_loop_written (polls : List Poll) (c : Nat)
    (hno : ∀ p ∈ polls, p.write_lost = false)
    (h : c + written_count polls < 2 ^ 32) :
    (capture_loop polls c).1 = c + written_count polls
      ∧ written_files (capture_loop polls c).2
          = (List.range' c (written_count polls)).map
              (fun j => (snprintf 50 (save_name_text j)).stored) := by
  induction polls generalizing c with
  | nil => simp [capture_loop, written_count, written_files]
  | cons p rest ih =>
    rw [capture_loop_cons]
    rw [written_count_cons] at h ⊢
    have hp := poll_step_written c p (hno p (by simp))
    have hrest : ∀ q ∈ rest, q.write_lost = false := fun q hq => hno q (by simp [hq])
    have h1 := (hp []).1
    have h2 : ∀ r, written_files ((poll_step c p).2 ++ r)
        = (if p.write_succeeded = true then [(snprintf 50 (save_name_text c)).stored] else [])
          ++ written_files r := fun r => (hp r).2
    by_cases hs : p.write_succeeded = true
    · rw [if_pos hs] at h h1
      have hmod : (c + 1) % 2 ^ 32 = c + 1 := Nat.mod_eq_of_lt (by omega)
      rw [hmod] at h1
      have := ih (c + 1) hrest (by omega)
      rw [h1, h2, if_pos hs, this.1, this.2]
      refine ⟨by omega, ?_⟩
      rw [if_pos hs, show written_count rest + 1 = (written_count rest).succ from rfl,
        List.range'_succ]
      simp
    · rw [if_neg hs] at h h1
      have := ih c hrest (by simpa using h)
      rw [h1, h2, if_neg hs, this.1, this.2]
      simp [hs]

/-- A picture whose `fwrite` reports nothing written is counted like any other:
the code does not look at the value `fwrite` returns. -/
theorem unwritten_picture_is_counted :
    (app_main_capture [⟨some sample_jpeg, true, 0, 0⟩]).1 = 1 := by
  decide

/-- Claim C10 fails on two inputs. For a sequence of 4294967296 polls that all
write their picture, `saved_frame_count`, a `uint32_t`, holds 4294967295 after
4294967295 of them and is back at 0 after the next one. And for a single poll
whose file is opened but whose `fwrite` reports 0 of 4 bytes written, the write
did not succeed and the counter is 1 all the same. -/
theorem saved_frame_count_wraps :
    (app_main_capture (List.replicate 4294967295 ⟨some sample_jpeg, true, 4, 0⟩)).1
        = 4294967295
      ∧ (app_main_capture (List.replicate 4294967296 ⟨some sample_jpeg, true, 4, 0⟩)).1 = 0
      ∧ Poll.write_succeeded ⟨some sample_jpeg, true, 0, 0⟩ = false
      ∧ (app_main_capture [⟨some sample_jpeg, true, 0, 0⟩]).1 = 1 := by
  refine ⟨?_, ?_, by decide, by decide⟩
  · rw [app_main_capture,
      capture_loop_replicate ⟨some sample_jpeg, true, 4, 0⟩ rfl 4294967295 0 (by norm_num)]
    norm_num
  · rw [app_main_capture,
      capture_loop_replicate ⟨some sample_jpeg, true, 4, 0⟩ rfl 4294967296 0 (by norm_num)]
    norm_num

/-- Claim C10 as amended: for every sequence of polls in which fewer than
`2 ^ 32` pictures are written and no write is lost after its file was opened,
the counter starts at 0, ends as the number of successful writes, grows by
exactly 1 on a poll whose frame was acquired and whose write succeeded and
stays unchanged on every other poll, and the files written successfully are, in
order, those named with the indices `0, 1, 2, ...` without gap. -/
theorem saved_frame_count_tracks_written_files (polls : List Poll)
    (hno : ∀ p ∈ polls, p.write_lost = false)
    (h : written_count polls < 2 ^ 32) :
    (app_main_capture []).1 = 0
      ∧ (app_main_capture polls).1 = written_count polls
      ∧ (∀ pre p post, polls = pre ++ p :: post →
          (app_main_capture (pre ++ [p])).1
            = (app_main_capture pre).1 + (if p.write_succeeded = true then 1 else 0))
      ∧ written_files (app_main_capture polls).2
          = (List.range (written_count polls)).map (fun j => save_name_text j ++ [0]) := by
  have hall := capture_loop_written polls 0 hno (by simpa using h)
  refine ⟨rfl, by simpa [app_main_capture] using hall.1, ?_, ?_⟩
  · intro pre p post hsplit
    have hle : written_count (pre ++ [p]) ≤ written_count polls := by
      rw [hsplit, show pre ++ p :: post = (pre ++ [p]) ++ post by simp,
        written_count_append (pre ++ [p]) post]
      omega
    have hle2 : written_count pre ≤ written_count (pre ++ [p]) := by
      rw [written_count_append]; omega
    have hno1 : ∀ q ∈ pre ++ [p], q.write_lost = false := by
      intro q hq
      apply hno q
      rw [hsplit]
      rcases List.mem_append.mp hq with hm | hm
      · exact List.mem_append_left _ hm
      · exact List.mem_append_right _ (List.mem_cons.mpr (Or.inl (List.mem_singleton.mp hm)))
    have hno2 : ∀ q ∈ pre, q.write_lost = false :=
      fun q hq => hno1 q (List.mem_append_left _ hq)
    have h1 := (capture_loop_written (pre ++ [p]) 0 hno1 (by omega)).1
    have h2 := (capture_loop_written pre 0 hno2 (by omega)).1
    simp only [app_main_capture, h1, h2, written_count_append, Nat.zero_add]
    simp [written_count, List.countP_cons]
  · simp only [app_main_capture, hall.2]
    exact opened_names_range _ (by omega)

/-- Claim C10 as amended, on five polls of which the second acquires no frame:
the counter ends at 4 and the files written are `picture0.jpg` to
`picture3.jpg`. -/
theorem saved_frame_count_tracks_written_files_witness :
    (app_main_capture [⟨some sample_jpeg, true, 4, 0⟩, ⟨none, true, 0, 0⟩,
        ⟨some sample_jpeg, true, 4, 0⟩, ⟨some sample_rgb565, true, 4, 0⟩,
        ⟨some sample_jpeg, true, 4, 0⟩]).1 = 4
      ∧ written_files (app_main_capture [⟨some sample_jpeg, true, 4, 0⟩, ⟨none, true, 0, 0⟩,
        ⟨some sample_jpeg, true, 4, 0⟩, ⟨some sample_rgb565, true, 4, 0⟩,
        ⟨some sample_jpeg, true, 4, 0⟩]).2
        = [bytes "/sdcard/picture0.jpg" ++ [0], bytes "/sdcard/picture1.jpg" ++ [0],
            bytes "/sdcard/picture2.jpg" ++ [0], bytes "/sdcard/picture3.jpg" ++ [0]] := by
  have h := saved_frame_count_tracks_written_files [⟨some sample_jpeg, true, 4, 0⟩,
    ⟨none, true, 0, 0⟩, ⟨some sample_jpeg, true, 4, 0⟩, ⟨some sample_rgb565, true, 4, 0⟩,
    ⟨some sample_jpeg, true, 4, 0⟩] (by decide) (by decide)
  have hc : written_count [⟨some sample_jpeg, true, 4, 0⟩, ⟨none, true, 0, 0⟩,
    ⟨some sample_jpeg, true, 4, 0⟩, ⟨some sample_rgb565, true, 4, 0⟩,
    ⟨some sample_jpeg, true, 4, 0⟩] = 4 := by
    decide
  rw [hc] at h
  refine ⟨h.2.1, ?_⟩
  rw [h.2.2.2]
  simp [List.range, List.range.loop, save_name_text, decimal, bytes]

/-! ## The header fits its buffer (C11) -/

/-- The decimal conversion of `n` has `Nat.log 10 n + 1` bytes: the number of
decimal digits of `n`, one digit for zero. -/
theorem decimal_length (n : Nat) : (decimal n).length = Nat.log 10 n + 1 := by
  unfold decimal
  split
  · subst_vars; simp
  · rename_i hn
    simp only [List.length_map, List.length_reverse]
    exact Nat.digits_len 10 n (by norm_num) hn

/-- A text of at most `size - 1` bytes is stored whole, followed by a NUL. -/
theorem snprintf_stored_of_fits (size : Nat) (t : List Nat) (h : t.length + 1 ≤ size) :
    (snprintf size t).stored = t ++ [0] := by
  have h0 : size ≠ 0 := by omega
  simp only [snprintf, if_neg h0]
  rw [List.take_of_length_le (by omega)]

/-- Claim C11: for every payload length `N < 1000000` the header text has
`57 + d` bytes, where `d` is the number of decimal digits of `N`, which is at
most 63; `snprintf` stores the whole text and its NUL in the 64 bytes of
`part_buffer`; `header_length` is the length of the stored text; and the header
chunk reads exactly the text, no byte behind it and no byte outside the
buffer. -/
theorem header_fits_part_buffer (n : Nat) (hn : n < 1000000) :
    (header_text n).length = 57 + (decimal n).length
      ∧ (decimal n).length = Nat.log 10 n + 1
      ∧ (header_text n).length ≤ 63
      ∧ (snprintf PART_BUFFER_SIZE (header_text n)).stored = header_text n ++ [0]
      ∧ (snprintf PART_BUFFER_SIZE (header_text n)).stored.length ≤ PART_BUFFER_SIZE
      ∧ (header_chunk n).buf = some (header_text n ++ [0])
      ∧ (header_chunk n).len = (header_text n).length
      ∧ (header_chunk n).len - ((header_chunk n).buf.getD []).length = 0
      ∧ ∀ beyond, (header_chunk n).wire beyond = header_text n := by
  have hl := decimal_length_le n 6 (by norm_num) (by norm_num; exact hn)
  have hlen : (header_text n).length ≤ 63 := by
    rw [header_text_length]; omega
  have hst : (snprintf PART_BUFFER_SIZE (header_text n)).stored = header_text n ++ [0] :=
    snprintf_stored_of_fits PART_BUFFER_SIZE (header_text n) (by
      simp only [PART_BUFFER_SIZE]; omega)
  have hbuf : (header_chunk n).buf = some (header_text n ++ [0]) := by
    rw [show (header_chunk n).buf
      = some (snprintf PART_BUFFER_SIZE (header_text n)).stored from rfl, hst]
  refine ⟨header_text_length n, decimal_length n, hlen, hst, ?_, hbuf, rfl, ?_,
    header_chunk_wire_of_fits n hlen⟩
  · rw [hst, List.length_append, List.length_singleton]
    simp only [PART_BUFFER_SIZE]; omega
  · rw [hbuf, header_chunk_len]
    simp

/-- Claim C11 at `N = 999999`, the longest text covered: six digits, 63 bytes
of text, 64 bytes stored, and the chunk reads the 63 bytes of text. -/
theorem header_fits_part_buffer_witness :
    (header_text 999999).length = 63
      ∧ (decimal 999999).length = 6
      ∧ (snprintf PART_BUFFER_SIZE (header_text 999999)).stored = header_text 999999 ++ [0]
      ∧ (snprintf PART_BUFFER_SIZE (header_text 999999)).stored.length ≤ 64
      ∧ (header_chunk 999999).len = 63
      ∧ ∀ beyond, (header_chunk 999999).wire beyond = header_text 999999 := by
  have h := header_fits_part_buffer 999999 (by norm_num)
  have d : (decimal 999999).length = 6 := by simp [decimal]
  have e : (header_text 999999).length = 63 := by rw [h.1, d]
  exact ⟨e, d, h.2.2.2.1, h.2.2.2.2.1, h.2.2.2.2.2.2.1.trans e, h.2.2.2.2.2.2.2.2⟩

end CameraStream
